import Mathlib

/-
Verification of the risk-scoring engine of the Pipeline Integrity Management
System (source file: ai-model/risk_predictor.py, class PipelineRiskPredictor).

Shallow embedding conventions:
- A pandas DataFrame is a `DFrame`: a list of column names plus, per column,
  a numeric view (the float content, as exact rationals) and a string view
  (the content after astype(str)).  Missing cells (NaN) are not modelled:
  columns are total lists, so the per-batch median imputation step
  (`fillna(median)`) is the identity here and is not observable by any of
  the properties below.
- Python floats are modelled as `ℚ`.  The square root that appears inside
  the standard deviation computations (pandas `.std()` and the fitted
  scaler scale) is irrational in general, so it is taken as an explicit
  function parameter `sq : ℚ → ℚ`; none of the verified properties depend
  on its values.  `np.std` of exactly two values is computed in closed form
  (`|a - b| / 2`); the lemma `npStd2_eq_sqrt` below checks that closed form
  against the textbook definition over `ℝ`.
- The two fitted regressors are opaque learned objects; batch inference is
  parameterised by their prediction functions `rf gb : List (List ℚ) → List ℚ`
  (a matrix of scaled feature rows in, one prediction per row out).
- `datetime.now()` is a parameter `now`: a timestamp in days for the feature
  engineering age computation and for the estimated failure date.
- Python exceptions are modelled with `Except PredError`.  Mutation of
  `self.label_encoders` / `self.scaler` / `self.is_trained` is explicit
  state passing of a `PState`; as in Python, encoder mutations performed
  before an exception is raised persist in the returned state.
- Training internals after the target check (the randomized train/test
  split, the model fits, cross-validation and metrics) are outside the
  embedding; `train` models the state effect (setting the trained flag) and
  every error path that precedes fitting.
-/

/-- Error kinds raised by the predictor (ValueError/IndexError/sklearn
errors in the source, named after the taxonomy used by its callers). -/
inductive PredError
  | noUsableFeatures
  | noTargetVariable
  | modelNotTrained
  | indexError
  | featureMismatch
  | scalerNotFitted
deriving DecidableEq

/-- A columnar table: column names in order, plus a numeric and a string
view of the content of each column. -/
structure DFrame where
  cols : List String
  numVal : String → List ℚ
  strVal : String → List String

/-- Column assignment `df[c] = v` (numeric content): overwrites the numeric
view of `c` and appends `c` to the column list when it is new. -/
def DFrame.setNum (df : DFrame) (c : String) (v : List ℚ) : DFrame where
  cols := if c ∈ df.cols then df.cols else df.cols ++ [c]
  numVal := fun x => if x = c then v else df.numVal x
  strVal := df.strVal

/-- `dict.get(k, 0)` on a one-row record: first numeric cell of column `k`,
defaulting to 0 when the key is absent. -/
def DFrame.get0 (df : DFrame) (k : String) : ℚ :=
  if k ∈ df.cols then (df.numVal k).headD 0 else 0

/-- `self.numerical_features` from `__init__`. -/
def numerical_features : List String :=
  ["age_years", "diameter", "pressure_rating", "length_km",
   "depth_avg", "temperature_avg", "corrosion_rate",
   "soil_resistivity", "cathodic_protection_level",
   "wall_thickness", "operating_pressure"]

/-- `self.categorical_features` from `__init__`. -/
def categorical_features : List String :=
  ["material", "coating_type", "environment_type",
   "soil_type", "installation_method"]

/-- `self.risk_factors` from `__init__`. -/
def risk_factors : List String :=
  ["corrosion_severity", "depth_variation", "pressure_fluctuation",
   "temperature_variation", "external_damage_risk"]

/-- The environmental factor list local to `engineer_features`. -/
def environmental_factors : List String :=
  ["temperature_avg", "soil_resistivity", "depth_avg"]

/-- Mean of a list of rationals (`sum / len`; 0 on the empty list, matching
the 0/0 = 0 convention of `ℚ`). -/
def listMean (l : List ℚ) : ℚ := l.sum / (l.length : ℚ)

/-- Row-wise sum of a list of equal-length columns. -/
def rowSum : List (List ℚ) → List ℚ
  | [] => []
  | c :: cs => (cs.foldl (fun acc col => List.zipWith (· + ·) acc col) c)

/-- Row-wise maximum of a list of columns (pandas `.max(axis=1)`). -/
def rowMax : List (List ℚ) → List ℚ
  | [] => []
  | c :: cs => (cs.foldl (fun acc col => List.zipWith max acc col) c)

/-- Row-wise mean over `n` columns (pandas `.mean(axis=1)`). -/
def rowMean (cs : List (List ℚ)) : List ℚ :=
  (rowSum cs).map (fun x => x / (cs.length : ℚ))

/-- Sample standard deviation of a column (pandas `.std()`, ddof = 1), with
the square root supplied as `sq`. -/
def colStd (sq : ℚ → ℚ) (l : List ℚ) : ℚ :=
  sq ((l.map (fun x => (x - listMean l) ^ 2)).sum / ((l.length : ℚ) - 1))

/-- Step of `engineer_features`, lines 82-85: when `installation_date` is a
column of the input, `age_years` is assigned the day difference to `now`
divided by 365.25.  The assignment is unconditional in the source: a
supplied `age_years` column is overwritten. -/
def eng_age (now : ℚ) (df : DFrame) : DFrame :=
  if "installation_date" ∈ df.cols then
    df.setNum "age_years" ((df.numVal "installation_date").map (fun d => (now - d) / 365.25))
  else df

/-- Step of `engineer_features`, lines 88-91: operating vs rated pressure. -/
def eng_pressure (df0 d : DFrame) : DFrame :=
  if "operating_pressure" ∈ df0.cols ∧ "pressure_rating" ∈ df0.cols then
    d.setNum "pressure_ratio"
      (List.zipWith (· / ·) (d.numVal "operating_pressure") (d.numVal "pressure_rating"))
  else d

/-- Step of `engineer_features`, lines 94-97: current vs original wall
thickness. -/
def eng_wall (df0 d : DFrame) : DFrame :=
  if "current_wall_thickness" ∈ df0.cols ∧ "original_wall_thickness" ∈ df0.cols then
    d.setNum "wall_thickness_ratio"
      (List.zipWith (· / ·) (d.numVal "current_wall_thickness")
        (d.numVal "original_wall_thickness"))
  else d

/-- Step of `engineer_features`, lines 100-103: corrosion rate times age
(the age column is looked up on the engineered frame, the corrosion rate
presence on the raw input, as in the source). -/
def eng_corrosion (df0 d : DFrame) : DFrame :=
  if "corrosion_rate" ∈ df0.cols ∧ "age_years" ∈ d.cols then
    d.setNum "corrosion_acceleration"
      (List.zipWith (· * ·) (d.numVal "corrosion_rate") (d.numVal "age_years"))
  else d

/-- Step of `engineer_features`, lines 106-112: composite and maximum of
the five risk-factor severities, gated on all five being present. -/
def eng_risk (df0 d : DFrame) : DFrame :=
  if risk_factors.all (fun f => f ∈ df0.cols) then
    ((d.setNum "composite_risk_score" (rowMean (risk_factors.map d.numVal))).setNum
      "max_risk_factor" (rowMax (risk_factors.map d.numVal)))
  else d

/-- Step of `engineer_features`, lines 114-127: z-score normalization of
each available environmental factor, then the mean absolute normalized
deviation.  `sq` is the square root inside the standard deviation. -/
def eng_env (sq : ℚ → ℚ) (df0 d : DFrame) : DFrame :=
  let avail := environmental_factors.filter (fun f => f ∈ df0.cols)
  let d5 := avail.foldl
    (fun acc f =>
      acc.setNum (f ++ "_normalized")
        ((acc.numVal f).map (fun x => (x - listMean (acc.numVal f)) / colStd sq (acc.numVal f))))
    d
  if avail = [] then d5
  else d5.setNum "environmental_stress"
    (rowMean (avail.map (fun f => (d5.numVal (f ++ "_normalized")).map (fun x => |x|))))

/-- `PipelineRiskPredictor.engineer_features` (lines 68-134).  Each block
of the source is one `eng_*` step; conditions that the source checks on the
raw `df` receive the raw frame `df` separately from the accumulated
engineered frame.  The try/except wrapper of the source is not modelled:
every step here is total. -/
def engineer_features (sq : ℚ → ℚ) (now : ℚ) (df : DFrame) : DFrame :=
  eng_env sq df (eng_risk df (eng_corrosion df (eng_wall df (eng_pressure df (eng_age now df)))))

/-- Every column name `engineer_features` can introduce. -/
def engineeredNames : List String :=
  ["age_years", "pressure_ratio", "wall_thickness_ratio", "corrosion_acceleration",
   "composite_risk_score", "max_risk_factor", "temperature_avg_normalized",
   "soil_resistivity_normalized", "depth_avg_normalized", "environmental_stress"]

/-- Lexicographic comparison of char lists by code point (the order
`np.unique` sorts strings in). -/
def chListLt : List Char → List Char → Bool
  | [], [] => false
  | [], _ :: _ => true
  | _ :: _, [] => false
  | a :: as, b :: bs =>
    if a.toNat < b.toNat then true
    else if a.toNat = b.toNat then chListLt as bs
    else false

/-- Boolean string order used to sort encoder classes. -/
def strLeB (a b : String) : Bool := !(chListLt b.data a.data)

/-- Insert into a sorted list. -/
def insertSorted (a : String) : List String → List String
  | [] => [a]
  | b :: bs => if strLeB a b then a :: b :: bs else b :: insertSorted a bs

/-- Sort a list of strings ascending. -/
def sortStrings (l : List String) : List String := l.foldr insertSorted []

/-- `LabelEncoder.fit`: the learned `classes_` are the sorted distinct
observed values (`np.unique`). -/
def fitClasses (vals : List String) : List String := sortStrings vals.dedup

/-- The transform-with-fallback of `prepare_data` (lines 157-168) for one
frozen encoder: `transform` raises on any unseen value, in which case every
unseen value is replaced by `classes_[0]` and the column is re-transformed.
`none` models the `IndexError` of `classes_[0]` on an empty frozen mapping;
with a nonempty mapping the fallback never raises. -/
def transformColumn (classes : List String) (vals : List String) : Option (List Nat) :=
  if vals.all (fun v => classes.contains v) then
    some (vals.map (fun v => classes.indexOf v))
  else
    match classes with
    | [] => none
    | c :: _ =>
      some ((vals.map (fun v => if classes.contains v then v else c)).map
        (fun v => classes.indexOf v))

/-- The categorical loop of `prepare_data` (lines 148-168): for each
declared categorical feature present in the frame, either fit a fresh
encoder (feature not seen before — note the source has no trained-flag
guard here, so this can also happen during inference) or transform with the
frozen one.  Encoded integer codes are written into the numeric view of the
column.  The encoder list accumulated so far is returned even when the
fallback raises, matching in-place mutation of `self.label_encoders`. -/
def encodeCats (encs : List (String × List String)) (feats : List String) (df : DFrame) :
    List (String × List String) × Except PredError DFrame :=
  match feats with
  | [] => (encs, Except.ok df)
  | f :: rest =>
    if f ∈ df.cols then
      match List.lookup f encs with
      | none =>
        let classes := fitClasses (df.strVal f)
        encodeCats (encs ++ [(f, classes)]) rest
          (df.setNum f ((df.strVal f).map (fun v => ((classes.indexOf v : Nat) : ℚ))))
      | some classes =>
        match transformColumn classes (df.strVal f) with
        | some codes => encodeCats encs rest (df.setNum f (codes.map (fun n => (n : ℚ))))
        | none => (encs, Except.error PredError.indexError)
    else encodeCats encs rest df

/-- Fitted `StandardScaler` state: per-column means and scales. -/
structure ScalerState where
  means : List ℚ
  scales : List ℚ
deriving DecidableEq

/-- Feature matrix (row major) from the selected columns: one row per
record, one entry per available feature. -/
def buildMatrix (df : DFrame) (available : List String) : List (List ℚ) :=
  let nrows := match available with
    | [] => 0
    | c :: _ => (df.numVal c).length
  (List.range nrows).map (fun i => available.map (fun c => (df.numVal c).getD i 0))

/-- `StandardScaler.fit_transform`: learn per-column mean and scale
(population standard deviation via `sq`, zero variances scaled by 1) and
standardize. -/
def scalerFitTransform (sq : ℚ → ℚ) (X : List (List ℚ)) : ScalerState × List (List ℚ) :=
  let columns := (List.range ((X.headD []).length)).map (fun j => X.map (fun r => r.getD j 0))
  let means := columns.map listMean
  let scales := columns.map (fun c =>
    let v := (c.map (fun x => (x - listMean c) ^ 2)).sum / (c.length : ℚ)
    if v = 0 then 1 else sq v)
  let st : ScalerState := ⟨means, scales⟩
  (st, X.map (fun r => List.zipWith (fun x (p : ℚ × ℚ) => (x - p.1) / p.2) r (means.zip scales)))

/-- `StandardScaler.transform` with the frozen statistics; `none` models
the sklearn feature-count check failing. -/
def scalerTransform (sc : ScalerState) (X : List (List ℚ)) : Option (List (List ℚ)) :=
  if X.all (fun r => r.length = sc.means.length) then
    some (X.map (fun r => List.zipWith (fun x (p : ℚ × ℚ) => (x - p.1) / p.2) r
      (sc.means.zip sc.scales)))
  else none

/-- Target extraction of `prepare_data` (lines 186-191): the
`failure_probability` column when present, else the `incident_occurred`
column cast to float, else no target. -/
def extractTarget (df : DFrame) : Option (List ℚ) :=
  if "failure_probability" ∈ df.cols then some (df.numVal "failure_probability")
  else if "incident_occurred" ∈ df.cols then some (df.numVal "incident_occurred")
  else none

/-- The mutable predictor state: `self.label_encoders`, `self.scaler`
(`none` before any fit) and `self.is_trained`. -/
structure PState where
  label_encoders : List (String × List String)
  scaler : Option ScalerState
  is_trained : Bool
deriving DecidableEq

/-- `PipelineRiskPredictor.prepare_data` (lines 136-193): engineer
features, encode categoricals, select the declared features present,
scale (fitting the scaler exactly when the artifact is untrained), and
extract the target.  The returned `PState` carries the encoder/scaler
mutations the call performed, also on the error paths. -/
def prepare_data (sq : ℚ → ℚ) (now : ℚ) (st : PState) (df : DFrame) :
    PState × Except PredError (List (List ℚ) × Option (List ℚ)) :=
  let dfe := engineer_features sq now df
  match encodeCats st.label_encoders categorical_features dfe with
  | (encs, Except.error e) => ({ st with label_encoders := encs }, Except.error e)
  | (encs, Except.ok dfp) =>
    let available := (numerical_features ++ categorical_features).filter (fun f => f ∈ dfp.cols)
    if available = [] then
      ({ st with label_encoders := encs }, Except.error PredError.noUsableFeatures)
    else
      let X := buildMatrix dfp available
      if st.is_trained then
        match st.scaler with
        | some sc =>
          match scalerTransform sc X with
          | some Xs =>
            ({ st with label_encoders := encs }, Except.ok (Xs, extractTarget dfp))
          | none => ({ st with label_encoders := encs }, Except.error PredError.featureMismatch)
        | none => ({ st with label_encoders := encs }, Except.error PredError.scalerNotFitted)
      else
        let fitRes := scalerFitTransform sq X
        ({ st with label_encoders := encs, scaler := some fitRes.1 },
          Except.ok (fitRes.2, extractTarget dfp))

/-- `PipelineRiskPredictor.train` (lines 195-254): prepare the data in fit
mode, fail with the no-target error when no target column was derivable,
otherwise fit the two regressors and mark the artifact trained.  The model
fits and metric computations after the target check are abstracted: the
outcome on success is `()` and the trained flag is set. -/
def train (sq : ℚ → ℚ) (now : ℚ) (st : PState) (df : DFrame) : PState × Except PredError Unit :=
  match prepare_data sq now st df with
  | (st1, Except.error e) => (st1, Except.error e)
  | (st1, Except.ok (_, y)) =>
    match y with
    | none => (st1, Except.error PredError.noTargetVariable)
    | some _ => ({ st1 with is_trained := true }, Except.ok ())

/-- `np.clip(x, lo, hi)` (for lo ≤ hi). -/
def clip (x lo hi : ℚ) : ℚ := min (max x lo) hi

/-- `np.std([a, b], axis=0)` per element: the population standard deviation
of two values, in closed form (checked against the square-root definition
by `npStd2_eq_sqrt` below). -/
def npStd2 (a b : ℚ) : ℚ := |a - b| / 2

/-- The per-row confidence of `predict` (line 283):
`np.clip(1 - pred_std * 2, 0.1, 1.0)`. -/
def confFn (a b : ℚ) : ℚ := clip (1 - npStd2 a b * 2) 0.1 1.0

/-- The per-row ensemble combination of `predict` (lines 278-279). -/
def ensembleFn (a b : ℚ) : ℚ := a * 0.6 + b * 0.4

/-- The batch result dictionary of `predict` (lines 285-293), without the
constant metadata fields. -/
structure BatchResult where
  failure_probability : List ℚ
  confidence_score : Option (List ℚ)
  pred_rf : List ℚ
  pred_gb : List ℚ
deriving DecidableEq

/-- `PipelineRiskPredictor.predict` (lines 256-295): refuse when
untrained, prepare the data in transform mode, query both regressors,
combine with the fixed 0.6/0.4 weights and attach the agreement-based
confidence. -/
def predict (rf gb : List (List ℚ) → List ℚ) (return_confidence : Bool) (sq : ℚ → ℚ)
    (now : ℚ) (st : PState) (df : DFrame) : PState × Except PredError BatchResult :=
  if st.is_trained = false then (st, Except.error PredError.modelNotTrained)
  else
    match prepare_data sq now st df with
    | (st1, Except.error e) => (st1, Except.error e)
    | (st1, Except.ok (X, _)) =>
      let pRF := rf X
      let pGB := gb X
      (st1, Except.ok
        { failure_probability := List.zipWith ensembleFn pRF pGB
          confidence_score :=
            if return_confidence then some (List.zipWith confFn pRF pGB) else none
          pred_rf := pRF
          pred_gb := pGB })

/-- `PipelineRiskPredictor._get_risk_level` (lines 394-403). -/
def get_risk_level (failure_prob : ℚ) : String :=
  if failure_prob ≥ 0.7 then "critical"
  else if failure_prob ≥ 0.5 then "high"
  else if failure_prob ≥ 0.3 then "medium"
  else "low"

/-- `PipelineRiskPredictor._estimate_failure_date` (lines 372-392), with
`now` a timestamp in days and `age`/`corr` the `pipeline_data.get(..., 0)`
values; the result is the failure timestamp in days (the source converts
`estimated_years * 365` to a timedelta in days). -/
def estimate_failure_date (now failure_prob age corr : ℚ) : Option ℚ :=
  if failure_prob < 0.3 then none
  else some (now +
    max 0.5 ((1 - failure_prob) * 10) *
      (if age > 25 then 0.8 else 1.0) *
      (if corr > 0.1 then 0.7 else 1.0) * 365)

/-- `PipelineRiskPredictor._generate_recommendations` (lines 331-370). -/
def generate_recommendations (failure_prob age corr : ℚ) : List String :=
  (if failure_prob > 0.8 then
    ["URGENT: Schedule immediate inspection",
     "Consider pipeline replacement or major repair",
     "Increase monitoring frequency to weekly",
     "Implement emergency response procedures"]
  else if failure_prob > 0.6 then
    ["Schedule comprehensive inspection within 30 days",
     "Increase cathodic protection monitoring",
     "Consider targeted repairs for high-risk sections",
     "Review operating pressure limits"]
  else if failure_prob > 0.4 then
    ["Schedule routine inspection within 90 days",
     "Monitor corrosion indicators closely",
     "Review maintenance schedule",
     "Consider preventive maintenance"]
  else
    ["Continue standard monitoring schedule",
     "Annual comprehensive inspection recommended",
     "Maintain current operating procedures"])
  ++ (if age > 30 then ["Consider age-related integrity assessment"] else [])
  ++ (if corr > 0.1 then ["Implement enhanced corrosion monitoring"] else [])

/-- The single-asset result of `predict_single_pipeline` (lines 319-329),
without the constant metadata fields. -/
structure SingleResult where
  failure_probability : ℚ
  confidence_score : ℚ
  predicted_failure_date : Option ℚ
  risk_level : String
  recommendations : List String
deriving DecidableEq

/-- `PipelineRiskPredictor.predict_single_pipeline` (lines 297-329): run
batch inference on the one-row frame built from the record, then derive
risk level, recommendations and the estimated failure date.  The input
record is its own one-row `DFrame`; `.get(key, 0)` lookups use
`DFrame.get0`.  The `confidence_score[0] if confidence_score else 0.8`
truthiness test falls back to 0.8 when the list is absent or empty. -/
def predict_single_pipeline (rf gb : List (List ℚ) → List ℚ) (sq : ℚ → ℚ) (now : ℚ)
    (st : PState) (pdata : DFrame) : PState × Except PredError SingleResult :=
  match predict rf gb true sq now st pdata with
  | (st1, Except.error e) => (st1, Except.error e)
  | (st1, Except.ok res) =>
    let failure_prob := res.failure_probability.headD 0
    let conf := match res.confidence_score with
      | some (c :: _) => c
      | _ => 0.8
    (st1, Except.ok
      { failure_probability := failure_prob
        confidence_score := conf
        predicted_failure_date :=
          estimate_failure_date now failure_prob (pdata.get0 "age_years")
            (pdata.get0 "corrosion_rate")
        risk_level := get_risk_level failure_prob
        recommendations :=
          generate_recommendations failure_prob (pdata.get0 "age_years")
            (pdata.get0 "corrosion_rate") })

/-- A placeholder square root for concrete evaluations (no verified
property depends on the values of `sq`). -/
def sq0 : ℚ → ℚ := fun _ => 0

/-- One-row frame with a single numerical feature column. -/
def dfD : DFrame where
  cols := ["diameter"]
  numVal := fun c => if c = "diameter" then [1] else []
  strVal := fun _ => []

/-- One-row frame with a numerical and a categorical column. -/
def dfDM : DFrame where
  cols := ["diameter", "material"]
  numVal := fun c => if c = "diameter" then [1] else []
  strVal := fun c => if c = "material" then ["Bronze"] else []

/-- A trained state whose scaler was fit on one feature and which has no
frozen encoders (trained on purely numerical data). -/
def stT : PState where
  label_encoders := []
  scaler := some ⟨[0], [1]⟩
  is_trained := true

/-- A trained state with a frozen encoder for `material` and a scaler fit
on two features. -/
def stT2 : PState where
  label_encoders := [("material", ["Steel"])]
  scaler := some ⟨[0, 0], [1, 1]⟩
  is_trained := true

/-- A fresh, untrained state. -/
def stU : PState where
  label_encoders := []
  scaler := none
  is_trained := false

/-- A frame with no columns at all. -/
def dfEmpty : DFrame where
  cols := []
  numVal := fun _ => []
  strVal := fun _ => []

instance instDecEqExcept {e a : Type} [DecidableEq e] [DecidableEq a] :
    DecidableEq (Except e a) := fun x y =>
  match x, y with
  | Except.ok u, Except.ok v =>
    if h : u = v then isTrue (h ▸ rfl) else isFalse (fun c => h (Except.ok.inj c))
  | Except.error u, Except.error v =>
    if h : u = v then isTrue (h ▸ rfl) else isFalse (fun c => h (Except.error.inj c))
  | Except.ok _, Except.error _ => isFalse (fun c => Except.noConfusion c)
  | Except.error _, Except.ok _ => isFalse (fun c => Except.noConfusion c)

/-- The batch result of the concrete reference run: both models returning
0.4 on the one-row frame `dfD` under the trained state `stT`. -/
def resW : BatchResult where
  failure_probability := [0.4]
  confidence_score := some [1]
  pred_rf := [0.4]
  pred_gb := [0.4]


/-- One-row frame carrying both an installation date (day 0) and a
supplied age of 7 years. -/
def dfIA : DFrame where
  cols := ["installation_date", "age_years"]
  numVal := fun c =>
    if c = "installation_date" then [0] else if c = "age_years" then [7] else []
  strVal := fun _ => []

theorem mem_zipWith {α : Type} {f : α → α → α} :
    ∀ {l1 l2 : List α} {a : α}, a ∈ List.zipWith f l1 l2 →
      ∃ x ∈ l1, ∃ y ∈ l2, a = f x y := by
  intro l1
  induction l1 with
  | nil => intro l2 a h; simp [List.zipWith] at h
  | cons x xs ih =>
    intro l2 a h
    cases l2 with
    | nil => simp [List.zipWith] at h
    | cons y ys =>
      simp only [List.zipWith, List.mem_cons] at h
      rcases h with h | h
      · exact ⟨x, by simp, y, by simp, h⟩
      · obtain ⟨x', hx', y', hy', he⟩ := ih h
        exact ⟨x', by simp [hx'], y', by simp [hy'], he⟩

/-- The closed form used for `np.std` of two values agrees with the
square-root definition of the population standard deviation over `ℝ`. -/
theorem npStd2_eq_sqrt (a b : ℚ) :
    ((npStd2 a b : ℚ) : ℝ) =
      Real.sqrt ((((a : ℝ) - ((a + b) / 2)) ^ 2 + ((b : ℝ) - ((a + b) / 2)) ^ 2) / 2) := by
  have h : (((a : ℝ) - ((a + b) / 2)) ^ 2 + ((b : ℝ) - ((a + b) / 2)) ^ 2) / 2 =
      (((a : ℝ) - b) / 2) ^ 2 := by ring
  rw [h, Real.sqrt_sq_eq_abs, npStd2]
  push_cast
  rw [abs_div]
  norm_num

/-- Feature engineering adds nothing to the single-feature frame `dfD`. -/
theorem engineer_run1 : engineer_features sq0 0 dfD = dfD := by
  simp [engineer_features, eng_env, eng_risk, eng_corrosion, eng_wall, eng_pressure,
    eng_age, environmental_factors, risk_factors, dfD]

/-- The categorical loop is a no-op on `dfD` with no frozen encoders. -/
theorem encode_run1 : encodeCats stT.label_encoders categorical_features dfD =
    ([], Except.ok dfD) := by
  simp [encodeCats, categorical_features, stT, dfD]

/-- The declared feature present in `dfD` is its single column. -/
theorem avail_run1 : (numerical_features ++ categorical_features).filter
    (fun f => f ∈ dfD.cols) = ["diameter"] := by
  simp [numerical_features, categorical_features, dfD, List.filter_cons]

/-- Reference data preparation: `dfD` under `stT` scales to the one-cell
matrix [[1]] and carries no target. -/
theorem prepare_run1 : prepare_data sq0 0 stT dfD = (stT, Except.ok ([[1]], none)) := by
  simp only [prepare_data]
  rw [engineer_run1, encode_run1]
  simp only []
  rw [avail_run1]
  norm_num [dfD, stT, buildMatrix, scalerTransform, extractTarget,
    List.range, List.range.loop]
  simp

/-- Reference run: with a trained state, a plain numerical one-row frame
and both models answering 0.4, batch inference succeeds with probability
0.4 and confidence 1, leaving the state unchanged. -/
theorem predict_run1 :
    predict (fun _ => [0.4]) (fun _ => [0.4]) true sq0 0 stT dfD = (stT, Except.ok resW) := by
  simp only [predict]
  rw [show stT.is_trained = true from rfl]
  rw [prepare_run1]
  norm_num [resW, ensembleFn, confFn, clip, npStd2, min_def, max_def]

/-- Shape of a successful batch inference: the probability and confidence
lists are the per-row combination of the two stored model outputs. -/
theorem predict_ok_elim {rf gb : List (List ℚ) → List ℚ} {rc : Bool} {sq : ℚ → ℚ} {now : ℚ}
    {st : PState} {df : DFrame} {st1 : PState} {res : BatchResult}
    (h : predict rf gb rc sq now st df = (st1, Except.ok res)) :
    res.failure_probability = List.zipWith ensembleFn res.pred_rf res.pred_gb ∧
      res.confidence_score =
        (if rc then some (List.zipWith confFn res.pred_rf res.pred_gb) else none) := by
  unfold predict at h
  split at h
  · simp at h
  · split at h
    · simp at h
    · simp only [Prod.mk.injEq, Except.ok.injEq] at h
      obtain ⟨-, h2⟩ := h
      subst h2
      exact ⟨rfl, rfl⟩

/-- Run with disagreeing models (0 vs 0.4): probability 0.16, confidence
0.6 — the value `clip(1 - |0 - 0.4|, 0.1, 1.0)`. -/
theorem predict_run2 :
    predict (fun _ => [0]) (fun _ => [(0.4 : ℚ)]) true sq0 0 stT dfD =
      (stT, Except.ok (⟨[0.16], some [0.6], [0], [0.4]⟩ : BatchResult)) := by
  simp only [predict]
  rw [show stT.is_trained = true from rfl]
  rw [prepare_run1]
  have habs : |(2 / 5 : ℚ)| = 2 / 5 := abs_of_nonneg (by norm_num)
  norm_num [ensembleFn, confFn, clip, npStd2, habs, min_def, max_def]

/-- Run with both models answering 2: the combined probability 2 is
returned without clipping. -/
theorem predict_run5 :
    predict (fun _ => [2]) (fun _ => [(2 : ℚ)]) true sq0 0 stT dfD =
      (stT, Except.ok (⟨[2], some [1], [2], [2]⟩ : BatchResult)) := by
  simp only [predict]
  rw [show stT.is_trained = true from rfl]
  rw [prepare_run1]
  norm_num [ensembleFn, confFn, clip, npStd2, min_def, max_def]

/-- C1: for every successful batch inference, the returned confidence list
is the per-pair value `confFn p_rf p_gb`, which equals
`clip(1 - |p_rf - p_gb|, 0.1, 1.0)` — the code multiplies the two-value
standard deviation `|p_rf - p_gb| / 2` by 2, so the slope in
`|p_rf - p_gb|` is 1, not the 2 the claim states; the confidence always
lies in [0.1, 1.0] and is non-increasing as `|p_rf - p_gb|` grows. -/
theorem predict_confidence_formula (rf gb : List (List ℚ) → List ℚ) (sq : ℚ → ℚ) (now : ℚ)
    (st : PState) (df : DFrame) (st1 : PState) (res : BatchResult)
    (h : predict rf gb true sq now st df = (st1, Except.ok res)) :
    res.confidence_score = some (List.zipWith confFn res.pred_rf res.pred_gb) ∧
      (∀ a b : ℚ, confFn a b = clip (1 - |a - b|) 0.1 1.0) ∧
      (∀ a b : ℚ, 0.1 ≤ confFn a b ∧ confFn a b ≤ 1.0) ∧
      (∀ a b c d : ℚ, |a - b| ≤ |c - d| → confFn c d ≤ confFn a b) := by
  have hform : ∀ a b : ℚ, confFn a b = clip (1 - |a - b|) 0.1 1.0 := by
    intro a b
    unfold confFn npStd2
    congr 1
    ring
  refine ⟨?_, hform, ?_, ?_⟩
  · have := (predict_ok_elim h).2
    simpa using this
  · intro a b
    rw [hform]
    unfold clip
    constructor
    · exact le_min (le_max_right _ _) (by norm_num)
    · exact min_le_right _ _
  · intro a b c d hle
    rw [hform, hform]
    unfold clip
    exact min_le_min (max_le_max (by linarith) le_rfl) le_rfl

theorem predict_confidence_formula_witness :
    (resW.confidence_score = some (List.zipWith confFn resW.pred_rf resW.pred_gb)) ∧
      (∀ a b : ℚ, confFn a b = clip (1 - |a - b|) 0.1 1.0) ∧
      (∀ a b : ℚ, 0.1 ≤ confFn a b ∧ confFn a b ≤ 1.0) ∧
      (∀ a b c d : ℚ, |a - b| ≤ |c - d| → confFn c d ≤ confFn a b) :=
  predict_confidence_formula (fun _ => [0.4]) (fun _ => [0.4]) sq0 0 stT dfD stT resW
    predict_run1

/-- C1 fails as stated: a run whose per-model predictions are 0 and 0.4
returns confidence 0.6, while the claimed formula
`clip(1 - 2 * |p_rf - p_gb|, 0.1, 1.0)` gives 0.2. -/
theorem predict_confidence_claim_counterexample :
    ((predict (fun _ => [0]) (fun _ => [(0.4 : ℚ)]) true sq0 0 stT dfD).2).map
        (fun r => r.confidence_score) = Except.ok (some [(0.6 : ℚ)]) ∧
      clip (1 - 2 * |(0 : ℚ) - 0.4|) 0.1 1.0 = 0.2 ∧ ((0.6 : ℚ) ≠ 0.2) := by
  refine ⟨?_, ?_, by norm_num⟩
  · rw [predict_run2]
    rfl
  · have habs : |(0 : ℚ) - 0.4| = 0.4 := by rw [abs_of_nonpos] <;> norm_num
    rw [habs]
    unfold clip
    norm_num [min_def, max_def]

/-- C2: every successful batch inference combines the two per-row model
outputs as `0.6 * p_rf + 0.4 * p_gb`, with constant weights. -/
theorem predict_ensemble_weights (rf gb : List (List ℚ) → List ℚ) (rc : Bool) (sq : ℚ → ℚ)
    (now : ℚ) (st : PState) (df : DFrame) (st1 : PState) (res : BatchResult)
    (h : predict rf gb rc sq now st df = (st1, Except.ok res)) :
    res.failure_probability = List.zipWith ensembleFn res.pred_rf res.pred_gb ∧
      (∀ a b : ℚ, ensembleFn a b = 0.6 * a + 0.4 * b) := by
  refine ⟨(predict_ok_elim h).1, fun a b => ?_⟩
  unfold ensembleFn
  ring

theorem predict_ensemble_weights_witness :
    (resW.failure_probability = List.zipWith ensembleFn resW.pred_rf resW.pred_gb) ∧
      (∀ a b : ℚ, ensembleFn a b = 0.6 * a + 0.4 * b) :=
  predict_ensemble_weights (fun _ => [0.4]) (fun _ => [0.4]) true sq0 0 stT dfD stT resW
    predict_run1

/-- C5 fails as stated: the combined probability is not clipped, so raw
model outputs outside [0, 1] propagate — with both regressors returning 2,
the returned failure probability entry is 2 > 1. -/
theorem ensemble_unbounded_counterexample :
    ((predict (fun _ => [2]) (fun _ => [(2 : ℚ)]) true sq0 0 stT dfD).2).map
        (fun r => r.failure_probability) = Except.ok [(2 : ℚ)] ∧ ¬ ((2 : ℚ) ≤ 1) := by
  refine ⟨?_, by norm_num⟩
  rw [predict_run5]
  rfl

/-- C5 amended: the returned failure probabilities lie in [0, 1] whenever
both per-model raw outputs lie in [0, 1] (the combination is convex); the
code performs no clipping, so this does not hold for arbitrary raw
outputs. -/
theorem ensemble_unit_interval (rf gb : List (List ℚ) → List ℚ) (rc : Bool) (sq : ℚ → ℚ)
    (now : ℚ) (st : PState) (df : DFrame) (st1 : PState) (res : BatchResult)
    (h : predict rf gb rc sq now st df = (st1, Except.ok res))
    (hrf : ∀ x ∈ res.pred_rf, 0 ≤ x ∧ x ≤ 1)
    (hgb : ∀ y ∈ res.pred_gb, 0 ≤ y ∧ y ≤ 1) :
    ∀ p ∈ res.failure_probability, 0 ≤ p ∧ p ≤ 1 := by
  intro p hp
  rw [(predict_ok_elim h).1] at hp
  obtain ⟨x, hx, y, hy, he⟩ := mem_zipWith hp
  obtain ⟨hx0, hx1⟩ := hrf x hx
  obtain ⟨hy0, hy1⟩ := hgb y hy
  subst he
  unfold ensembleFn
  constructor <;> nlinarith

theorem ensemble_unit_interval_witness :
    0 ≤ (0.4 : ℚ) ∧ (0.4 : ℚ) ≤ 1 :=
  ensemble_unit_interval (fun _ => [0.4]) (fun _ => [0.4]) true sq0 0 stT dfD stT resW
    predict_run1
    (by intro x hx; simp [resW] at hx; subst hx; norm_num)
    (by intro y hy; simp [resW] at hy; subst hy; norm_num)
    0.4 (List.mem_singleton.mpr rfl)

/-- C3: the risk tier is `critical` exactly when the probability is at
least 0.7, `high` exactly on [0.5, 0.7), `medium` exactly on [0.3, 0.5)
and `low` exactly below 0.3 — every boundary closed on its lower bound. -/
theorem risk_level_thresholds (p : ℚ) :
    (get_risk_level p = "critical" ↔ 0.7 ≤ p) ∧
      (get_risk_level p = "high" ↔ 0.5 ≤ p ∧ p < 0.7) ∧
      (get_risk_level p = "medium" ↔ 0.3 ≤ p ∧ p < 0.5) ∧
      (get_risk_level p = "low" ↔ p < 0.3) := by
  unfold get_risk_level
  split_ifs with h1 h2 h3
  · refine ⟨⟨fun _ => h1, fun _ => rfl⟩, ?_, ?_, ?_⟩
    · exact ⟨fun hc => absurd hc (by decide), fun hc => absurd hc.2 (not_lt.mpr h1)⟩
    · exact ⟨fun hc => absurd hc (by decide), fun hc => absurd hc.2 (by linarith)⟩
    · exact ⟨fun hc => absurd hc (by decide), fun hc => absurd hc (by linarith)⟩
  · refine ⟨?_, ⟨fun _ => ⟨h2, lt_of_not_le h1⟩, fun _ => rfl⟩, ?_, ?_⟩
    · exact ⟨fun hc => absurd hc (by decide), fun hc => absurd hc (by linarith [lt_of_not_le h1])⟩
    · exact ⟨fun hc => absurd hc (by decide), fun hc => absurd hc.2 (not_lt.mpr h2)⟩
    · exact ⟨fun hc => absurd hc (by decide), fun hc => absurd hc (by linarith)⟩
  · refine ⟨?_, ?_, ⟨fun _ => ⟨h3, lt_of_not_le h2⟩, fun _ => rfl⟩, ?_⟩
    · exact ⟨fun hc => absurd hc (by decide), fun hc => absurd hc (by linarith [lt_of_not_le h1])⟩
    · exact ⟨fun hc => absurd hc (by decide), fun hc => absurd hc.1 h2⟩
    · exact ⟨fun hc => absurd hc (by decide), fun hc => absurd hc (by linarith)⟩
  · refine ⟨?_, ?_, ?_, ⟨fun _ => lt_of_not_le h3, fun _ => rfl⟩⟩
    · exact ⟨fun hc => absurd hc (by decide), fun hc => absurd hc (by linarith [lt_of_not_le h3])⟩
    · exact ⟨fun hc => absurd hc (by decide), fun hc => absurd hc.1 (by linarith [lt_of_not_le h3])⟩
    · exact ⟨fun hc => absurd hc (by decide), fun hc => absurd hc.1 h3⟩

/-- C4: the estimated failure date is undefined exactly when the
probability is below 0.3; otherwise it is `now` plus the horizon
`max(0.5, (1 - p) * 10)` years, times 0.8 when the record age exceeds 25
years, times 0.7 when its corrosion rate exceeds 0.1, converted at 365
days per year. -/
theorem estimate_failure_date_spec (now p age corr : ℚ) :
    (p < 0.3 → estimate_failure_date now p age corr = none) ∧
      (0.3 ≤ p → estimate_failure_date now p age corr =
        some (now +
          max 0.5 ((1 - p) * 10) *
            (if age > 25 then 0.8 else 1.0) *
            (if corr > 0.1 then 0.7 else 1.0) * 365)) := by
  constructor
  · intro h
    unfold estimate_failure_date
    rw [if_pos h]
  · intro h
    unfold estimate_failure_date
    rw [if_neg (not_lt.mpr h)]

theorem estimate_failure_date_spec_witness :
    (estimate_failure_date 0 0.2 30 0.2 = none) ∧
      estimate_failure_date 0 0.8 30 0.2 =
        some (0 +
          max 0.5 ((1 - 0.8) * 10) *
            (if (30 : ℚ) > 25 then 0.8 else 1.0) *
            (if (0.2 : ℚ) > 0.1 then 0.7 else 1.0) * 365) :=
  ⟨(estimate_failure_date_spec 0 0.2 30 0.2).1 (by norm_num),
   (estimate_failure_date_spec 0 0.8 30 0.2).2 (by norm_num)⟩

/-- C7: every inference entry point refuses an untrained artifact with the
model-not-trained error as its very first action, before feature
engineering, encoding or any state mutation — the state comes back
untouched. -/
theorem untrained_inference_rejected (rf gb : List (List ℚ) → List ℚ) (rc : Bool)
    (sq : ℚ → ℚ) (now : ℚ) (st : PState) (df : DFrame)
    (h : st.is_trained = false) :
    predict rf gb rc sq now st df = (st, Except.error PredError.modelNotTrained) ∧
      predict_single_pipeline rf gb sq now st df =
        (st, Except.error PredError.modelNotTrained) := by
  have hp : predict rf gb rc sq now st df = (st, Except.error PredError.modelNotTrained) := by
    unfold predict
    rw [if_pos h]
  have hp1 : predict rf gb true sq now st df = (st, Except.error PredError.modelNotTrained) := by
    unfold predict
    rw [if_pos h]
  refine ⟨hp, ?_⟩
  unfold predict_single_pipeline
  rw [hp1]

theorem untrained_inference_rejected_witness :
    (predict (fun _ => [0.4]) (fun _ => [0.4]) true sq0 0 stU dfD =
      (stU, Except.error PredError.modelNotTrained)) ∧
      predict_single_pipeline (fun _ => [0.4]) (fun _ => [0.4]) sq0 0 stU dfD =
        (stU, Except.error PredError.modelNotTrained) :=
  untrained_inference_rejected (fun _ => [0.4]) (fun _ => [0.4]) true sq0 0 stU dfD rfl

theorem setNum_numVal_ne (df : DFrame) (c c' : String) (v : List ℚ) (h : c' ≠ c) :
    (df.setNum c v).numVal c' = df.numVal c' := by
  simp [DFrame.setNum, h]

theorem setNum_numVal_self (df : DFrame) (c : String) (v : List ℚ) :
    (df.setNum c v).numVal c = v := by
  simp [DFrame.setNum]

theorem eng_pressure_age (df0 d : DFrame) :
    (eng_pressure df0 d).numVal "age_years" = d.numVal "age_years" := by
  unfold eng_pressure
  split_ifs
  · exact setNum_numVal_ne _ _ _ _ (by decide)
  · rfl

theorem eng_wall_age (df0 d : DFrame) :
    (eng_wall df0 d).numVal "age_years" = d.numVal "age_years" := by
  unfold eng_wall
  split_ifs
  · exact setNum_numVal_ne _ _ _ _ (by decide)
  · rfl

theorem eng_corrosion_age (df0 d : DFrame) :
    (eng_corrosion df0 d).numVal "age_years" = d.numVal "age_years" := by
  unfold eng_corrosion
  split_ifs
  · exact setNum_numVal_ne _ _ _ _ (by decide)
  · rfl

theorem eng_risk_age (df0 d : DFrame) :
    (eng_risk df0 d).numVal "age_years" = d.numVal "age_years" := by
  unfold eng_risk
  split_ifs
  · rw [setNum_numVal_ne _ _ _ _ (by decide), setNum_numVal_ne _ _ _ _ (by decide)]
  · rfl

theorem foldl_setNormalized_numVal (g : DFrame → String → List ℚ) (c : String) :
    ∀ (l : List String) (d : DFrame), (∀ f ∈ l, f ++ "_normalized" ≠ c) →
      (l.foldl (fun acc f => acc.setNum (f ++ "_normalized") (g acc f)) d).numVal c =
        d.numVal c := by
  intro l
  induction l with
  | nil => intro d _; rfl
  | cons f fs ih =>
    intro d hl
    simp only [List.foldl_cons]
    rw [ih _ (fun x hx => hl x (List.mem_cons_of_mem _ hx))]
    exact setNum_numVal_ne _ _ _ _ (fun he => hl f (List.mem_cons_self _ _) (he ▸ rfl))

theorem env_factor_normalized_ne_age :
    ∀ f ∈ environmental_factors, f ++ "_normalized" ≠ "age_years" := by
  intro f hf
  simp only [environmental_factors, List.mem_cons, List.mem_singleton] at hf
  rcases hf with rfl | rfl | rfl | h
  · decide
  · decide
  · decide
  · simp at h

theorem eng_env_age (sq : ℚ → ℚ) (df0 d : DFrame) :
    (eng_env sq df0 d).numVal "age_years" = d.numVal "age_years" := by
  unfold eng_env
  have hsub : ∀ f ∈ environmental_factors.filter (fun f => f ∈ df0.cols),
      f ++ "_normalized" ≠ "age_years" := by
    intro f hf
    exact env_factor_normalized_ne_age f (List.mem_of_mem_filter hf)
  dsimp only
  split_ifs
  · exact foldl_setNormalized_numVal _ _ _ _ hsub
  · rw [setNum_numVal_ne _ _ _ _ (by decide)]
    exact foldl_setNormalized_numVal _ _ _ _ hsub

theorem engineer_numVal_age (sq : ℚ → ℚ) (now : ℚ) (df : DFrame) :
    (engineer_features sq now df).numVal "age_years" = (eng_age now df).numVal "age_years" := by
  unfold engineer_features
  rw [eng_env_age, eng_risk_age, eng_corrosion_age, eng_wall_age, eng_pressure_age]

/-- C9 amended: when `installation_date` is a column of the batch, feature
engineering always recomputes `age_years` from it — overwriting any
supplied `age_years` column; the supplied column is left unchanged only
when `installation_date` is absent. -/
theorem age_years_derivation (sq : ℚ → ℚ) (now : ℚ) (df : DFrame) :
    ("installation_date" ∈ df.cols →
      (engineer_features sq now df).numVal "age_years" =
        (df.numVal "installation_date").map (fun d0 => (now - d0) / 365.25)) ∧
      ("installation_date" ∉ df.cols →
        (engineer_features sq now df).numVal "age_years" = df.numVal "age_years") := by
  constructor <;> intro h <;> rw [engineer_numVal_age] <;> unfold eng_age
  · rw [if_pos h, setNum_numVal_self]
  · rw [if_neg h]

theorem age_years_derivation_witness :
    ((engineer_features sq0 36525 dfIA).numVal "age_years" =
      (dfIA.numVal "installation_date").map (fun d0 => (36525 - d0) / 365.25)) ∧
      (engineer_features sq0 0 dfD).numVal "age_years" = dfD.numVal "age_years" :=
  ⟨(age_years_derivation sq0 36525 dfIA).1 (by simp [dfIA]),
   (age_years_derivation sq0 0 dfD).2 (by simp [dfD])⟩

/-- C9 fails as stated: on a batch supplying both `installation_date`
(day 0) and `age_years` (7 years), feature engineering at day 36525
replaces the supplied column with the derived value 100 years. -/
theorem age_years_overwritten_counterexample :
    "installation_date" ∈ dfIA.cols ∧ "age_years" ∈ dfIA.cols ∧
      dfIA.numVal "age_years" = [7] ∧
      (engineer_features sq0 36525 dfIA).numVal "age_years" = [100] ∧
      ([100] : List ℚ) ≠ [7] := by
  refine ⟨by simp [dfIA], by simp [dfIA], by simp [dfIA], ?_, by norm_num⟩
  rw [engineer_numVal_age]
  unfold eng_age
  rw [if_pos (by simp [dfIA]), setNum_numVal_self]
  norm_num [dfIA]

/-- C6: with a nonempty frozen mapping (any encoder fit on at least one
value has one), the transform-with-fallback never raises: it returns codes
for every input column, and every value outside the learned classes is
encoded as 0 — the code of the first class of the frozen mapping, the
fixed fallback category. -/
theorem unseen_category_fallback (classes vals : List String) (h : classes ≠ []) :
    transformColumn classes vals =
      some (vals.map (fun v => if classes.contains v then classes.indexOf v else 0)) := by
  unfold transformColumn
  by_cases hall : vals.all (fun v => classes.contains v) = true
  · rw [if_pos hall]
    congr 1
    apply List.map_congr_left
    intro a ha
    rw [if_pos (List.all_eq_true.mp hall a ha)]
  · rw [if_neg hall]
    cases classes with
    | nil => exact absurd rfl h
    | cons c cs =>
      dsimp only
      congr 1
      rw [List.map_map]
      apply List.map_congr_left
      intro a ha
      by_cases hc : (c :: cs).contains a = true
      · simp only [Function.comp, hc, if_true, if_pos hc]
      · simp only [Function.comp, hc, if_false, if_neg hc]
        exact List.indexOf_cons_self c cs

theorem unseen_category_fallback_witness :
    transformColumn ["a", "b"] ["zzz", "b"] =
      some (["zzz", "b"].map
        (fun v => if (["a", "b"] : List String).contains v
          then (["a", "b"] : List String).indexOf v else 0)) :=
  unseen_category_fallback ["a", "b"] ["zzz", "b"] (by decide)

theorem setNum_cols_of_mem (df : DFrame) (c : String) (v : List ℚ) (h : c ∈ df.cols) :
    (df.setNum c v).cols = df.cols := by
  simp [DFrame.setNum, h]

theorem setNum_cols_sub (df : DFrame) (c : String) (v : List ℚ) :
    ∀ x ∈ (df.setNum c v).cols, x ∈ df.cols ∨ x = c := by
  intro x hx
  unfold DFrame.setNum at hx
  by_cases h : c ∈ df.cols
  · rw [if_pos h] at hx
    exact Or.inl hx
  · rw [if_neg h] at hx
    rcases List.mem_append.mp hx with h1 | h1
    · exact Or.inl h1
    · exact Or.inr (List.mem_singleton.mp h1)

theorem eng_age_cols (now : ℚ) (df : DFrame) :
    ∀ x ∈ (eng_age now df).cols, x ∈ df.cols ∨ x = "age_years" := by
  intro x hx
  unfold eng_age at hx
  split_ifs at hx
  · exact setNum_cols_sub _ _ _ x hx
  · exact Or.inl hx

theorem eng_pressure_cols (df0 d : DFrame) :
    ∀ x ∈ (eng_pressure df0 d).cols, x ∈ d.cols ∨ x = "pressure_ratio" := by
  intro x hx
  unfold eng_pressure at hx
  split_ifs at hx
  · exact setNum_cols_sub _ _ _ x hx
  · exact Or.inl hx

theorem eng_wall_cols (df0 d : DFrame) :
    ∀ x ∈ (eng_wall df0 d).cols, x ∈ d.cols ∨ x = "wall_thickness_ratio" := by
  intro x hx
  unfold eng_wall at hx
  split_ifs at hx
  · exact setNum_cols_sub _ _ _ x hx
  · exact Or.inl hx

theorem eng_corrosion_cols (df0 d : DFrame) :
    ∀ x ∈ (eng_corrosion df0 d).cols, x ∈ d.cols ∨ x = "corrosion_acceleration" := by
  intro x hx
  unfold eng_corrosion at hx
  split_ifs at hx
  · exact setNum_cols_sub _ _ _ x hx
  · exact Or.inl hx

theorem eng_risk_cols (df0 d : DFrame) :
    ∀ x ∈ (eng_risk df0 d).cols,
      x ∈ d.cols ∨ x = "composite_risk_score" ∨ x = "max_risk_factor" := by
  intro x hx
  unfold eng_risk at hx
  split_ifs at hx
  · rcases setNum_cols_sub _ _ _ x hx with h1 | h1
    · rcases setNum_cols_sub _ _ _ x h1 with h2 | h2
      · exact Or.inl h2
      · exact Or.inr (Or.inl h2)
    · exact Or.inr (Or.inr h1)
  · exact Or.inl hx

theorem foldl_setNormalized_cols (g : DFrame → String → List ℚ) :
    ∀ (l : List String) (d : DFrame),
      ∀ x ∈ (l.foldl (fun acc f => acc.setNum (f ++ "_normalized") (g acc f)) d).cols,
        x ∈ d.cols ∨ ∃ f ∈ l, x = f ++ "_normalized" := by
  intro l
  induction l with
  | nil => intro d x hx; exact Or.inl hx
  | cons f fs ih =>
    intro d x hx
    simp only [List.foldl_cons] at hx
    rcases ih _ x hx with h1 | ⟨f', hf', he⟩
    · rcases setNum_cols_sub _ _ _ x h1 with h2 | h2
      · exact Or.inl h2
      · exact Or.inr ⟨f, List.mem_cons_self _ _, h2⟩
    · exact Or.inr ⟨f', List.mem_cons_of_mem _ hf', he⟩

theorem eng_env_cols (sq : ℚ → ℚ) (df0 d : DFrame) :
    ∀ x ∈ (eng_env sq df0 d).cols,
      x ∈ d.cols ∨ (∃ f ∈ environmental_factors, x = f ++ "_normalized") ∨
        x = "environmental_stress" := by
  intro x hx
  unfold eng_env at hx
  dsimp only at hx
  have hfold : ∀ y ∈ (List.foldl
      (fun acc f => acc.setNum (f ++ "_normalized")
        (List.map (fun v => (v - listMean (acc.numVal f)) / colStd sq (acc.numVal f))
          (acc.numVal f)))
      d (environmental_factors.filter (fun f => f ∈ df0.cols))).cols,
      y ∈ d.cols ∨ ∃ f ∈ environmental_factors, y = f ++ "_normalized" := by
    intro y hy
    rcases foldl_setNormalized_cols _ _ _ y hy with h1 | ⟨f', hf', he⟩
    · exact Or.inl h1
    · exact Or.inr ⟨f', List.mem_of_mem_filter hf', he⟩
  split_ifs at hx
  · rcases hfold x hx with h1 | h1
    · exact Or.inl h1
    · exact Or.inr (Or.inl h1)
  · rcases setNum_cols_sub _ _ _ x hx with h1 | h1
    · rcases hfold x h1 with h2 | h2
      · exact Or.inl h2
      · exact Or.inr (Or.inl h2)
    · exact Or.inr (Or.inr h1)

/-- Every column of the engineered frame is a column of the input or one
of the fixed engineered names. -/
theorem engineer_cols (sq : ℚ → ℚ) (now : ℚ) (df : DFrame) :
    ∀ x ∈ (engineer_features sq now df).cols, x ∈ df.cols ∨ x ∈ engineeredNames := by
  intro x hx
  unfold engineer_features at hx
  have memE : ∀ s : String, s = "age_years" ∨ s = "pressure_ratio" ∨
      s = "wall_thickness_ratio" ∨ s = "corrosion_acceleration" ∨
      s = "composite_risk_score" ∨ s = "max_risk_factor" ∨
      (∃ f ∈ environmental_factors, s = f ++ "_normalized") ∨
      s = "environmental_stress" → s ∈ engineeredNames := by
    intro s hs
    rcases hs with rfl | rfl | rfl | rfl | rfl | rfl | ⟨f, hf, rfl⟩ | rfl
    · decide
    · decide
    · decide
    · decide
    · decide
    · decide
    · simp only [environmental_factors, List.mem_cons, List.mem_singleton] at hf
      rcases hf with rfl | rfl | rfl | hf
      · decide
      · decide
      · decide
      · simp at hf
    · decide
  rcases eng_env_cols sq df _ x hx with h1 | h1 | h1
  · rcases eng_risk_cols df _ x h1 with h2 | h2 | h2
    · rcases eng_corrosion_cols df _ x h2 with h3 | h3
      · rcases eng_wall_cols df _ x h3 with h4 | h4
        · rcases eng_pressure_cols df _ x h4 with h5 | h5
          · rcases eng_age_cols now df x h5 with h6 | h6
            · exact Or.inl h6
            · exact Or.inr (memE x (Or.inl h6))
          · exact Or.inr (memE x (Or.inr (Or.inl h5)))
        · exact Or.inr (memE x (Or.inr (Or.inr (Or.inl h4))))
      · exact Or.inr (memE x (Or.inr (Or.inr (Or.inr (Or.inl h3)))))
    · exact Or.inr (memE x (Or.inr (Or.inr (Or.inr (Or.inr (Or.inl h2))))))
    · exact Or.inr (memE x (Or.inr (Or.inr (Or.inr (Or.inr (Or.inr (Or.inl h2)))))))
  · exact Or.inr (memE x (Or.inr (Or.inr (Or.inr (Or.inr (Or.inr (Or.inr (Or.inl h1))))))))
  · exact Or.inr (memE x (Or.inr (Or.inr (Or.inr (Or.inr (Or.inr (Or.inr (Or.inr h1))))))))

theorem lookup_append_some {v : List String} {l2 : List (String × List String)} (k : String) :
    ∀ {l1 : List (String × List String)}, List.lookup k (l1 ++ l2) = some v →
      List.lookup k l1 = some v ∨ List.lookup k l2 = some v := by
  intro l1
  induction l1 with
  | nil => intro h; exact Or.inr h
  | cons p ps ih =>
    intro h
    obtain ⟨a, b⟩ := p
    rw [List.cons_append] at h
    simp only [List.lookup] at h ⊢
    cases hk : k == a with
    | true => rw [hk] at h; exact Or.inl h
    | false =>
      rw [hk] at h
      exact ih h

theorem transformColumn_isSome (classes vals : List String) (h : classes ≠ []) :
    ∃ codes, transformColumn classes vals = some codes := by
  unfold transformColumn
  by_cases hall : vals.all (fun v => classes.contains v) = true
  · rw [if_pos hall]
    exact ⟨_, rfl⟩
  · rw [if_neg hall]
    cases classes with
    | nil => exact absurd rfl h
    | cons c cs => exact ⟨_, rfl⟩

theorem cat_not_engineered : ∀ f ∈ categorical_features, f ∉ engineeredNames := by
  intro f hf
  simp only [categorical_features, List.mem_cons, List.mem_singleton] at hf
  rcases hf with rfl | rfl | rfl | rfl | rfl | hf
  · decide
  · decide
  · decide
  · decide
  · decide
  · simp at hf

theorem extractTarget_none (d : DFrame) (h1 : "failure_probability" ∉ d.cols)
    (h2 : "incident_occurred" ∉ d.cols) : extractTarget d = none := by
  unfold extractTarget
  rw [if_neg h1, if_neg h2]

/-- The categorical loop never raises when every frozen encoder that a
processed feature can hit has a nonempty class list; the columns of the
frame are unchanged. -/
theorem encodeCats_ok :
    ∀ (feats : List String), feats.Nodup →
      ∀ (encs : List (String × List String)) (d : DFrame),
        (∀ f ∈ feats, ∀ cs, List.lookup f encs = some cs → cs ≠ []) →
        ∃ encs2 d2, encodeCats encs feats d = (encs2, Except.ok d2) ∧ d2.cols = d.cols := by
  intro feats
  induction feats with
  | nil => intro _ encs d _; exact ⟨encs, d, rfl, rfl⟩
  | cons f rest ih =>
    intro hnd encs d H
    have hnd' : rest.Nodup := (List.nodup_cons.mp hnd).2
    have hfni : f ∉ rest := (List.nodup_cons.mp hnd).1
    by_cases hf : f ∈ d.cols
    · cases hlk : List.lookup f encs with
      | none =>
        have Hnew : ∀ g ∈ rest, ∀ cs2,
            List.lookup g (encs ++ [(f, fitClasses (d.strVal f))]) = some cs2 → cs2 ≠ [] := by
          intro g hg cs2 hcs
          rcases lookup_append_some g hcs with h1 | h2
          · exact H g (List.mem_cons_of_mem _ hg) cs2 h1
          · exfalso
            simp only [List.lookup] at h2
            cases hgf : g == f with
            | true =>
              exact hfni (by rw [← eq_of_beq hgf]; exact hg)
            | false =>
              rw [hgf] at h2
              simp at h2
        obtain ⟨e2, d2, heq, hcols⟩ := ih hnd'
          (encs ++ [(f, fitClasses (d.strVal f))])
          (d.setNum f ((d.strVal f).map
            (fun v => (((fitClasses (d.strVal f)).indexOf v : Nat) : ℚ)))) Hnew
        refine ⟨e2, d2, ?_, by rw [hcols, setNum_cols_of_mem _ _ _ hf]⟩
        simp only [encodeCats]
        rw [if_pos hf, hlk]
        exact heq
      | some cs =>
        have hne : cs ≠ [] := H f (List.mem_cons_self _ _) cs hlk
        obtain ⟨codes, hcodes⟩ := transformColumn_isSome cs (d.strVal f) hne
        obtain ⟨e2, d2, heq, hcols⟩ := ih hnd' encs
          (d.setNum f (codes.map (fun n => (n : ℚ))))
          (fun g hg => H g (List.mem_cons_of_mem _ hg))
        refine ⟨e2, d2, ?_, by rw [hcols, setNum_cols_of_mem _ _ _ hf]⟩
        simp only [encodeCats]
        rw [if_pos hf, hlk]
        dsimp only
        rw [hcodes]
        exact heq
    · obtain ⟨e2, d2, heq, hcols⟩ := ih hnd' encs d
        (fun g hg => H g (List.mem_cons_of_mem _ hg))
      refine ⟨e2, d2, ?_, hcols⟩
      simp only [encodeCats]
      rw [if_neg hf]
      exact heq

/-- When every categorical feature present in the frame already has a
frozen encoder, the categorical loop leaves the encoder list unchanged —
on every outcome, including the fallback path for unseen values. -/
theorem encodeCats_frozen :
    ∀ (feats : List String) (encs : List (String × List String)) (d : DFrame),
      (∀ f ∈ feats, f ∈ d.cols → (List.lookup f encs).isSome) →
      (encodeCats encs feats d).1 = encs := by
  intro feats
  induction feats with
  | nil => intro encs d _; rfl
  | cons f rest ih =>
    intro encs d H
    by_cases hf : f ∈ d.cols
    · have hs := H f (List.mem_cons_self _ _) hf
      cases hlk : List.lookup f encs with
      | none => rw [hlk] at hs; simp at hs
      | some cs =>
        simp only [encodeCats]
        rw [if_pos hf, hlk]
        dsimp only
        cases hcodes : transformColumn cs (d.strVal f) with
        | none => rfl
        | some codes =>
          dsimp only
          apply ih
          intro g hg hgd
          exact H g (List.mem_cons_of_mem _ hg)
            (by rwa [setNum_cols_of_mem _ _ _ hf] at hgd)
    · simp only [encodeCats]
      rw [if_neg hf]
      exact ih encs d (fun g hg hgd => H g (List.mem_cons_of_mem _ hg) hgd)

theorem prepare_data_fst_trained (sq : ℚ → ℚ) (now : ℚ) (st : PState) (df : DFrame)
    (hTr : st.is_trained = true) :
    (prepare_data sq now st df).1 =
      { st with label_encoders :=
          (encodeCats st.label_encoders categorical_features (engineer_features sq now df)).1 } := by
  unfold prepare_data
  dsimp only
  cases hec : encodeCats st.label_encoders categorical_features (engineer_features sq now df) with
  | mk encs2 r =>
    cases r with
    | error e =>
      dsimp only
    | ok dfp =>
      dsimp only
      split_ifs with h1
      · rfl
      · split
        · split
          · rfl
          · rfl
        · rfl

theorem predict_fst_trained (rf gb : List (List ℚ) → List ℚ) (rc : Bool) (sq : ℚ → ℚ)
    (now : ℚ) (st : PState) (df : DFrame) (hTr : st.is_trained = true) :
    (predict rf gb rc sq now st df).1 = (prepare_data sq now st df).1 := by
  unfold predict
  rw [hTr, if_neg (by simp : ¬(true = false))]
  cases hp : prepare_data sq now st df with
  | mk st1 r =>
    cases r with
    | error e => rfl
    | ok p =>
      cases p with
      | mk X y => rfl

/-- C8 amended: on a not-yet-trained predictor whose frozen encoders all
have nonempty class lists (a fresh predictor in particular), training on a
batch with neither a `failure_probability` nor an `incident_occurred`
column fails with the no-target error, provided at least one declared
feature column is available after feature engineering; with no usable
feature at all the call fails earlier with the no-usable-features error
(see the counterexample). -/
theorem train_missing_target (sq : ℚ → ℚ) (now : ℚ) (st : PState) (df : DFrame)
    (hT : "failure_probability" ∉ df.cols) (hI : "incident_occurred" ∉ df.cols)
    (hE : ∀ f cs, List.lookup f st.label_encoders = some cs → cs ≠ [])
    (hTr : st.is_trained = false)
    (hF : ∃ f ∈ numerical_features ++ categorical_features,
      f ∈ (engineer_features sq now df).cols) :
    (train sq now st df).2 = Except.error PredError.noTargetVariable := by
  obtain ⟨encs2, d2, heq, hcols⟩ := encodeCats_ok categorical_features (by decide)
    st.label_encoders (engineer_features sq now df) (fun f _ cs h => hE f cs h)
  have hTe : "failure_probability" ∉ d2.cols := by
    rw [hcols]
    intro hmem
    rcases engineer_cols sq now df _ hmem with h1 | h1
    · exact hT h1
    · revert h1
      decide
  have hIe : "incident_occurred" ∉ d2.cols := by
    rw [hcols]
    intro hmem
    rcases engineer_cols sq now df _ hmem with h1 | h1
    · exact hI h1
    · revert h1
      decide
  have havail : (numerical_features ++ categorical_features).filter
      (fun f => f ∈ d2.cols) ≠ [] := by
    obtain ⟨f, hf1, hf2⟩ := hF
    apply List.ne_nil_of_mem (a := f)
    rw [List.mem_filter]
    refine ⟨hf1, ?_⟩
    rw [hcols]
    simpa using hf2
  unfold train prepare_data
  dsimp only
  rw [heq]
  dsimp only
  rw [if_neg havail, hTr]
  rw [if_neg (by simp : ¬(false = true))]
  dsimp only
  rw [extractTarget_none d2 hTe hIe]

theorem train_missing_target_witness :
    (train sq0 0 stU dfD).2 = Except.error PredError.noTargetVariable :=
  train_missing_target sq0 0 stU dfD (by simp [dfD]) (by simp [dfD])
    (by intro f cs h; simp [stU, List.lookup] at h) rfl
    ⟨"diameter", by decide, by rw [engineer_run1]; simp [dfD]⟩

/-- Feature engineering adds nothing to the empty frame. -/
theorem engineer_runE : engineer_features sq0 0 dfEmpty = dfEmpty := by
  simp [engineer_features, eng_env, eng_risk, eng_corrosion, eng_wall, eng_pressure,
    eng_age, environmental_factors, risk_factors, dfEmpty]

/-- The categorical loop is a no-op on the empty frame. -/
theorem encode_runE : encodeCats stU.label_encoders categorical_features dfEmpty =
    ([], Except.ok dfEmpty) := by
  simp [encodeCats, categorical_features, stU, dfEmpty]

/-- C8 fails as stated: an empty batch has neither target column, but
training fails with the no-usable-features error, raised before the target
check, not with the no-target error. -/
theorem train_no_features_counterexample :
    (train sq0 0 stU dfEmpty).2 = Except.error PredError.noUsableFeatures ∧
      PredError.noUsableFeatures ≠ PredError.noTargetVariable ∧
      "failure_probability" ∉ dfEmpty.cols ∧ "incident_occurred" ∉ dfEmpty.cols := by
  refine ⟨?_, by decide, by simp [dfEmpty], by simp [dfEmpty]⟩
  unfold train prepare_data
  dsimp only
  rw [engineer_runE, encode_runE]
  dsimp only
  rw [if_pos (by simp [numerical_features, categorical_features, dfEmpty, List.filter_cons])]

/-- C10 amended: a batch-inference call on a trained artifact leaves the
whole mutable state unchanged — scaler, trained flag, and encoders —
provided every declared categorical feature present in the input already
has a frozen encoder (unseen category values are handled by the frozen
fallback, fitting nothing); a categorical feature column with no frozen
encoder is, however, freshly fit during inference (see the
counterexample). -/
theorem inference_preserves_frozen_state (rf gb : List (List ℚ) → List ℚ) (rc : Bool)
    (sq : ℚ → ℚ) (now : ℚ) (st : PState) (df : DFrame)
    (hTr : st.is_trained = true)
    (hEnc : ∀ f ∈ categorical_features, f ∈ df.cols →
      (List.lookup f st.label_encoders).isSome) :
    (predict rf gb rc sq now st df).1 = st := by
  have hEnc2 : ∀ f ∈ categorical_features, f ∈ (engineer_features sq now df).cols →
      (List.lookup f st.label_encoders).isSome := by
    intro f hf hfe
    rcases engineer_cols sq now df f hfe with h1 | h1
    · exact hEnc f hf h1
    · exact absurd h1 (cat_not_engineered f hf)
  have hfro := encodeCats_frozen categorical_features st.label_encoders
    (engineer_features sq now df) hEnc2
  rw [predict_fst_trained rf gb rc sq now st df hTr,
    prepare_data_fst_trained sq now st df hTr, hfro]

theorem inference_preserves_frozen_state_witness :
    (predict (fun _ => [0.4]) (fun _ => [0.4]) true sq0 0 stT2 dfDM).1 = stT2 :=
  inference_preserves_frozen_state (fun _ => [0.4]) (fun _ => [0.4]) true sq0 0 stT2 dfDM
    rfl (by decide)

/-- Feature engineering adds nothing to the two-column frame `dfDM`. -/
theorem engineer_runM : engineer_features sq0 0 dfDM = dfDM := by
  simp [engineer_features, eng_env, eng_risk, eng_corrosion, eng_wall, eng_pressure,
    eng_age, environmental_factors, risk_factors, dfDM]

/-- On `dfDM` with no frozen encoders, the categorical loop fits a fresh
encoder for the `material` column. -/
theorem encode_runM_fst :
    (encodeCats stT.label_encoders categorical_features dfDM).1 =
      [("material", ["Bronze"])] := by
  simp [encodeCats, categorical_features, stT, dfDM, List.lookup, fitClasses,
    sortStrings, insertSorted, DFrame.setNum]

/-- C10 fails as stated: inference on a trained artifact whose training
data had no `material` column, given an input that does carry one, fits a
fresh encoder during the inference call — the encoder state is mutated. -/
theorem inference_fits_new_encoder_counterexample :
    stT.is_trained = true ∧
      (predict (fun _ => [0.4]) (fun _ => [0.4]) true sq0 0 stT dfDM).1.label_encoders =
        [("material", ["Bronze"])] ∧
      stT.label_encoders = [] ∧
      ([("material", ["Bronze"])] : List (String × List String)) ≠ stT.label_encoders := by
  refine ⟨rfl, ?_, rfl, by simp [stT]⟩
  rw [predict_fst_trained (fun _ => [0.4]) (fun _ => [0.4]) true sq0 0 stT dfDM rfl,
    prepare_data_fst_trained sq0 0 stT dfDM rfl]
  rw [engineer_runM]
  dsimp only
  rw [encode_runM_fst]
